import Mathlib

/-!
Verification of the Spotter reconnaissance tool's concurrent probing core.

This file gives a shallow embedding of the relevant parts of the source:

* `src/modules/port_scanner.py` — port-range parsing (`_parse_port_range`),
  single-port probing (`_scan_port`), the custom concurrent scan
  (`_custom_scan`) and the static service-name table (`_get_service_name`);
* `src/modules/service_detector.py` — service identification
  (`_identify_service`), version extraction (`_extract_version`) and the
  per-port detection step (`_detect_service`);
* `src/modules/subdomain_discovery.py` — subdomain testing
  (`_test_subdomain`), zone transfer (`_attempt_zone_transfer`) and the
  final compile-and-sort step of `discover`.

Network effects (sockets, DNS, subprocesses) are modelled by explicit
environment records (`Net`, `DetectEnv`, resolver functions): each probe's
outcome is a function of the environment, exactly following the branching
of the Python code.  Completion order of the thread pool is modelled by
permutations of the task list.
-/

namespace Spotter

/-! ## String helpers

Python string primitives used by the source, modelled on `List Char`.
All inputs of interest are ASCII; the Unicode-only behaviours of Python
(`str.lower` on non-ASCII, underscore digit separators in `int()`) are
outside the inputs the program receives and are not modelled.
-/

/-- The whitespace class stripped by Python `int()` (ASCII part). -/
def pyIsSpace (c : Char) : Bool :=
  c = ' ' || c = '\t' || c = '\n' || c = '\r' || c.toNat = 11 || c.toNat = 12

/-- Strip leading and trailing whitespace, as Python `int()` does. -/
def stripWs (l : List Char) : List Char :=
  ((l.dropWhile pyIsSpace).reverse.dropWhile pyIsSpace).reverse

/-- Numeric value of a digit string. -/
def digitsToNat (l : List Char) : Nat :=
  l.foldl (fun acc c => acc * 10 + (c.toNat - 48)) 0

/-- Python `int(s)` on a string: optional surrounding whitespace, optional
sign, then a non-empty run of decimal digits; anything else raises
`ValueError`, modelled as `none`. -/
def pyInt? (s : List Char) : Option Int :=
  let t := stripWs s
  let signed : Bool × List Char :=
    match t with
    | '-' :: rest => (true, rest)
    | '+' :: rest => (false, rest)
    | _ => (false, t)
  if !signed.2.isEmpty && signed.2.all Char.isDigit then
    some (if signed.1 then -(digitsToNat signed.2 : Int) else (digitsToNat signed.2 : Int))
  else none

/-- Python `s.split(sep)` for a one-character separator. -/
def splitOnChar (sep : Char) : List Char → List (List Char)
  | [] => [[]]
  | c :: rest =>
    let r := splitOnChar sep rest
    if c = sep then [] :: r
    else
      match r with
      | h :: t => (c :: h) :: t
      | [] => [[c]]

/-! ## Port-range parsing (`PortScanner._parse_port_range`) -/

/-- Python `range(a, b + 1)` over integers: `a, a+1, ..., b`, empty when
`b < a`. -/
def intRange (a b : Int) : List Int :=
  (List.range (b + 1 - a).toNat).map (fun i : Nat => a + (i : Int))

/-- One comma-separated token of the port specification.  A token
containing `-` is split on `-` and its two pieces converted by `int`
(`start, end = map(int, part.split('-'))`); any other number of pieces is
an unpack `ValueError`.  A plain token is converted by `int` directly. -/
def parsePart (part : List Char) : Except String (List Int) :=
  if part.contains '-' then
    match splitOnChar '-' part with
    | [s1, s2] =>
      match pyInt? s1, pyInt? s2 with
      | some a, some b => .ok (intRange a b)
      | _, _ => .error "ValueError: invalid literal for int with base 10"
    | _ => .error "ValueError: too many values to unpack"
  else
    match pyInt? part with
    | some a => .ok [a]
    | none => .error "ValueError: invalid literal for int with base 10"

/-- The loop of `_parse_port_range`: `port_list` grows by `extend`/`append`
over the comma-separated tokens; the first failing token aborts the parse
(the `ValueError` propagates). -/
def parseGo : List (List Char) → List Int → Except String (List Int)
  | [], acc => .ok acc
  | part :: rest, acc =>
    match parsePart part with
    | .ok l => parseGo rest (acc ++ l)
    | .error e => .error e

/-- `PortScanner._parse_port_range`: split the specification on commas and
accumulate each token's ports in order. -/
def parse_port_range (ports : String) : Except String (List Int) :=
  parseGo (splitOnChar ',' ports.toList) []

/-! ## Port scanning (`PortScanner._scan_port`, `_custom_scan`) -/

/-- Outcome of the UDP send/receive attempt against one port: a datagram
response arrived before the timeout, the receive timed out
(`socket.timeout`), or some other exception was raised. -/
inductive UdpOutcome
  | response
  | timeout
  | exn
deriving DecidableEq

/-- The network environment seen by the custom scanner.  `tcp p` is the
return code of `connect_ex` for port `p` (`none` when an exception is
raised instead); `udp p` is the outcome of the UDP probe of port `p`. -/
structure Net where
  tcp : Int → Option Int
  udp : Int → UdpOutcome

/-- One entry of the scanner's `open_ports` list. -/
structure PortEntry where
  port : Int
  protocol : String
  state : String
  service : String
deriving DecidableEq

/-- `PortScanner._get_service_name`: the static `common_ports` table. -/
def get_service_name (port : Int) : String :=
  if port = 20 then "ftp-data" else if port = 21 then "ftp"
  else if port = 22 then "ssh" else if port = 23 then "telnet"
  else if port = 25 then "smtp" else if port = 53 then "dns"
  else if port = 80 then "http" else if port = 110 then "pop3"
  else if port = 143 then "imap" else if port = 443 then "https"
  else if port = 445 then "smb" else if port = 3306 then "mysql"
  else if port = 3389 then "rdp" else if port = 5432 then "postgresql"
  else if port = 5900 then "vnc" else if port = 8080 then "http-proxy"
  else if port = 8443 then "https-alt" else if port = 27017 then "mongodb"
  else if port = 6379 then "redis" else "unknown"

/-- `PortScanner._scan_port`: for `tcp`/`syn` an entry is produced exactly
when `connect_ex` returns `0`; for `udp` exactly when a datagram response
arrives; every exception is absorbed by the surrounding
`except Exception: pass` and yields `none`. -/
def scan_port (net : Net) (port : Int) (scan_type : String) : Option PortEntry :=
  if scan_type = "tcp" ∨ scan_type = "syn" then
    match net.tcp port with
    | some code =>
      if code = 0 then some ⟨port, "tcp", "open", get_service_name port⟩ else none
    | none => none
  else if scan_type = "udp" then
    match net.udp port with
    | .response => some ⟨port, "udp", "open", get_service_name port⟩
    | .timeout => none
    | .exn => none
  else none

/-- Comparison used by `sorted(open_ports, key=lambda x: x['port'])`. -/
def entryLE (a b : PortEntry) : Prop := a.port ≤ b.port

instance : DecidableRel entryLE := fun a b => inferInstanceAs (Decidable (a.port ≤ b.port))

instance : IsTotal PortEntry entryLE := ⟨fun a b => Int.le_total a.port b.port⟩

instance : IsTrans PortEntry entryLE := ⟨fun _ _ _ h₁ h₂ => Int.le_trans h₁ h₂⟩

/-- `PortScanner._custom_scan` after parsing: every port of the task list
is submitted once to `_scan_port`; non-`None` results are collected and
the collected list is sorted by the numeric `port` key.  The argument list
is the order in which the futures complete. -/
def custom_scan (net : Net) (scan_type : String) (port_list : List Int) : List PortEntry :=
  List.insertionSort entryLE (port_list.filterMap (fun p => scan_port net p scan_type))

/-- The full custom path of `scan`: parse the specification, then scan;
a parse failure propagates before any probe runs. -/
def scan_custom_path (net : Net) (ports : String) (scan_type : String) :
    Except String (List PortEntry) :=
  (parse_port_range ports).map (custom_scan net scan_type)

/-! ## Service identification (`ServiceDetector._identify_service`) -/

/-- Python ASCII `str.lower` on one character. -/
def lowerChar (c : Char) : Char :=
  if 'A' ≤ c ∧ c ≤ 'Z' then Char.ofNat (c.toNat + 32) else c

/-- Python `banner.lower()` (ASCII). -/
def strLowerL (l : List Char) : List Char := l.map lowerChar

/-- `pat` is a prefix of `l`. -/
def isPrefOf : List Char → List Char → Bool
  | [], _ => true
  | _ :: _, [] => false
  | a :: as, b :: bs => a = b && isPrefOf as bs

/-- Python `pat in s`: `pat` occurs as a contiguous substring of `s`. -/
def containsSub (s pat : List Char) : Bool :=
  match s with
  | [] => pat.isEmpty
  | _ :: rest => isPrefOf pat s || containsSub rest pat

/-- `ServiceDetector._identify_service`, port table: the `port_services`
dictionary. -/
def port_services (port : Int) : Option String :=
  if port = 21 then some "FTP" else if port = 22 then some "SSH"
  else if port = 23 then some "Telnet" else if port = 25 then some "SMTP"
  else if port = 53 then some "DNS" else if port = 80 then some "HTTP"
  else if port = 110 then some "POP3" else if port = 143 then some "IMAP"
  else if port = 443 then some "HTTPS" else if port = 445 then some "SMB"
  else if port = 3306 then some "MySQL" else if port = 3389 then some "RDP"
  else if port = 5432 then some "PostgreSQL" else if port = 5900 then some "VNC"
  else if port = 6379 then some "Redis" else if port = 8080 then some "HTTP-Proxy"
  else if port = 8443 then some "HTTPS-Alt" else if port = 27017 then some "MongoDB"
  else none

/-- The banner keyword chain of `_identify_service`, in source order: each
`elif` arm returns its canonical name on the first substring hit; `none`
models falling through to the port table. -/
def banner_keyword_service (bl : List Char) : Option String :=
  if containsSub bl "ssh".toList then some "SSH"
  else if containsSub bl "ftp".toList then some "FTP"
  else if containsSub bl "smtp".toList || containsSub bl "mail".toList then some "SMTP"
  else if containsSub bl "http".toList || containsSub bl "apache".toList
      || containsSub bl "nginx".toList then some "HTTP"
  else if containsSub bl "mysql".toList then some "MySQL"
  else if containsSub bl "postgresql".toList || containsSub bl "postgres".toList then
    some "PostgreSQL"
  else if containsSub bl "redis".toList then some "Redis"
  else if containsSub bl "mongodb".toList || containsSub bl "mongo".toList then some "MongoDB"
  else none

/-- `ServiceDetector._identify_service`: the banner keyword chain runs only
on a truthy (non-empty) banner, lowercased; otherwise and on no keyword
hit the static port table decides, with final fallback `"Unknown"`. -/
def identify_service (port : Int) (banner : String) : String :=
  match (if banner = "" then none else banner_keyword_service (strLowerL banner.toList)) with
  | some s => s
  | none => (port_services port).getD "Unknown"

/-- The specification's view of the keyword policy: a fixed ordered list of
keyword groups with canonical service names. -/
def keyword_table : List (List String × String) :=
  [(["ssh"], "SSH"), (["ftp"], "FTP"), (["smtp", "mail"], "SMTP"),
   (["http", "apache", "nginx"], "HTTP"), (["mysql"], "MySQL"),
   (["postgresql", "postgres"], "PostgreSQL"), (["redis"], "Redis"),
   (["mongodb", "mongo"], "MongoDB")]

/-- First-match-wins lookup over an ordered keyword table. -/
def table_first : List (List String × String) → List Char → Option String
  | [], _ => none
  | (ks, name) :: rest, bl =>
    if ks.any (fun k => containsSub bl k.toList) then some name else table_first rest bl

/-- Modelled from the spec's words for comparison with `identify_service`:
case-insensitive first-match over the ordered keyword table, then the port
table, then `"Unknown"`. -/
def spec_identify (port : Int) (banner : String) : String :=
  match (if banner = "" then none else table_first keyword_table (strLowerL banner.toList)) with
  | some s => s
  | none => (port_services port).getD "Unknown"

/-! ## Version extraction (`ServiceDetector._extract_version`)

The four regular expressions of the source are implemented as explicit
matchers with Python `re.search` semantics: the leftmost starting position
wins, quantifiers are greedy with backtracking.  For these patterns greedy
digit runs never need backtracking (a digit can never satisfy a following
literal dot), except inside `[:\s]+` of the `version:` pattern, where the
backtracking search is implemented faithfully.
-/

/-- `\d` of the patterns. -/
def isDigitCh (c : Char) : Bool := '0' ≤ c && c ≤ '9'

/-- Maximal digit run and the remainder. -/
def digitRun : List Char → List Char × List Char
  | [] => ([], [])
  | c :: rest =>
    if isDigitCh c then
      let dr := digitRun rest
      (c :: dr.1, dr.2)
    else ([], c :: rest)

/-- Matcher for `(\d+\.\d+\.\d+)` anchored at the current position. -/
def matchDotTriple (l : List Char) : Option (List Char) :=
  let d1 := digitRun l
  if d1.1.isEmpty then none
  else
    match d1.2 with
    | '.' :: r2 =>
      let d2 := digitRun r2
      if d2.1.isEmpty then none
      else
        match d2.2 with
        | '.' :: r4 =>
          let d3 := digitRun r4
          if d3.1.isEmpty then none
          else some (d1.1 ++ '.' :: d2.1 ++ '.' :: d3.1)
        | _ => none
    | _ => none

/-- Matcher for `(\d+\.\d+)` anchored at the current position. -/
def matchDotPair (l : List Char) : Option (List Char) :=
  let d1 := digitRun l
  if d1.1.isEmpty then none
  else
    match d1.2 with
    | '.' :: r2 =>
      let d2 := digitRun r2
      if d2.1.isEmpty then none else some (d1.1 ++ '.' :: d2.1)
    | _ => none

/-- `\s` of the patterns (ASCII). -/
def isSpaceRe (c : Char) : Bool :=
  c = ' ' || c = '\t' || c = '\n' || c = '\r' || c.toNat = 11 || c.toNat = 12

/-- One character of the `[:\s]` class. -/
def isSepCh (c : Char) : Bool := c = ':' || isSpaceRe c

/-- `([^\s]+)` anchored at the current position: the maximal non-empty run
of non-whitespace characters. -/
def tokRun (l : List Char) : Option (List Char) :=
  let t := l.takeWhile (fun c => !isSpaceRe c)
  if t.isEmpty then none else some t

/-- `[:\s]+([^\s]+)` anchored at the current position: greedily extend the
separator run, backtracking one character at a time when the token fails. -/
def sepTok : List Char → Option (List Char)
  | [] => none
  | c :: rest =>
    if isSepCh c then
      match sepTok rest with
      | some g => some g
      | none => tokRun rest
    else none

/-- Matcher for `[vV]ersion[:\s]+([^\s]+)` anchored at the current position. -/
def matchVersionLabel (l : List Char) : Option (List Char) :=
  match l with
  | c :: rest =>
    if (c = 'v' || c = 'V') && isPrefOf "ersion".toList rest then sepTok (rest.drop 6)
    else none
  | [] => none

/-- Matcher for `[vV]([0-9.]+)` anchored at the current position. -/
def matchVNum (l : List Char) : Option (List Char) :=
  match l with
  | c :: rest =>
    if c = 'v' || c = 'V' then
      let t := rest.takeWhile (fun ch => isDigitCh ch || ch = '.')
      if t.isEmpty then none else some t
    else none
  | [] => none

/-- `re.search`: try the anchored matcher at each position, leftmost first
(none of the four patterns can match the empty suffix). -/
def reSearch (m : List Char → Option (List Char)) : List Char → Option (List Char)
  | [] => none
  | c :: rest =>
    match m (c :: rest) with
    | some g => some g
    | none => reSearch m rest

/-- `ServiceDetector._extract_version`: an empty banner is `"Unknown"`;
otherwise the four patterns are tried in order and the first match's group
is returned; otherwise the banner's first line truncated to 50 characters,
or `"Unknown"` when that line is empty. -/
def extract_version (banner : String) : String :=
  if banner = "" then "Unknown"
  else
    let cs := banner.toList
    match reSearch matchDotTriple cs with
    | some g => String.mk g
    | none =>
      match reSearch matchDotPair cs with
      | some g => String.mk g
      | none =>
        match reSearch matchVersionLabel cs with
        | some g => String.mk g
        | none =>
          match reSearch matchVNum cs with
          | some g => String.mk g
          | none =>
            let first_line := String.mk ((cs.takeWhile (· ≠ '\n')).take 50)
            if first_line = "" then "Unknown" else first_line

/-! ## Service detection (`ServiceDetector._detect_service`) -/

/-- One entry of the detector's `services` list. -/
structure ServiceEntry where
  port : Int
  state : String
  service : String
  banner : String
  version : String
deriving DecidableEq

/-- The environment seen by the detector: whether the TCP connect succeeds
(`_is_port_open`), the banner `_grab_banner` returns (its own failures are
absorbed inside it, yielding the banner collected so far), and whether the
body of `_detect_service` raises an exception that its own
`except Exception` absorbs. -/
structure DetectEnv where
  isOpen : Int → Bool
  banner : Int → String
  exn : Int → Bool

/-- `ServiceDetector._detect_service`: `None` on a closed port or an
absorbed exception; otherwise an entry with state `'open'` built from the
banner. -/
def detect_service (env : DetectEnv) (port : Int) : Option ServiceEntry :=
  if env.exn port then none
  else if env.isOpen port then
    let b := env.banner port
    some ⟨port, "open", identify_service port b, b, extract_version b⟩
  else none

/-- The collection loop of `ServiceDetector.detect`: truthy per-port
results are appended in order. -/
def detect (env : DetectEnv) (ports : List Int) : List ServiceEntry :=
  ports.filterMap (detect_service env)

/-! ## Subdomain discovery (`SubdomainDiscovery`) -/

/-- `SubdomainDiscovery._test_subdomain`: form `sub.target`, resolve it;
a `socket.gaierror` (resolution failure, `resolve = none`) is absorbed and
yields `None`, a successful resolution yields the full domain. -/
def test_subdomain (resolve : String → Option String) (target sub : String) : Option String :=
  let full := sub ++ "." ++ target
  match resolve full with
  | some _ => some full
  | none => none

/-- `SubdomainDiscovery._brute_force_subdomains`: every candidate word is
submitted once; truthy results are added to the found set, modelled as the
arrival-order list of additions. -/
def brute_force_subdomains (resolve : String → Option String) (target : String)
    (words : List String) : List String :=
  words.filterMap (test_subdomain resolve target)

/-- Outcome of one AXFR attempt against one name server: a transferred
zone (its node names) or a refusal/failure (the `except` path). -/
inductive XfrOutcome
  | zone (names : List String)
  | refused
deriving DecidableEq

/-- The per-name-server body of `_attempt_zone_transfer`: a refused
transfer is absorbed and adds nothing; a successful one adds
`name.target` for every node of the zone. -/
def zone_transfer_step (target : String) (xfr : String → XfrOutcome)
    (acc : List String) (ns : String) : List String :=
  match xfr ns with
  | .refused => acc
  | .zone names => acc ++ names.map (fun n => n ++ "." ++ target)

/-- `SubdomainDiscovery._attempt_zone_transfer`: when the NS lookup itself
fails (`nsLookup = none`) the outer `except` absorbs it and the found set
is unchanged; otherwise every name server is attempted in order, each
refusal absorbed by the inner `except`. -/
def attempt_zone_transfer (target : String) (nsLookup : Option (List String))
    (xfr : String → XfrOutcome) (found : List String) : List String :=
  match nsLookup with
  | none => found
  | some nss => nss.foldl (zone_transfer_step target xfr) found

/-- One entry of the `subdomains` result list. -/
structure SubdomainEntry where
  subdomain : String
  ip_address : String
deriving DecidableEq

/-- `SubdomainDiscovery._resolve_subdomain`: any failure yields `'N/A'`. -/
def resolve_subdomain (resolve : String → Option String) (s : String) : String :=
  (resolve s).getD "N/A"

/-- Python `<` on strings: lexicographic by code point, a proper prefix
preceding its extensions. -/
def lexLt : List Char → List Char → Bool
  | [], [] => false
  | [], _ :: _ => true
  | _ :: _, [] => false
  | a :: as, b :: bs =>
    if a.toNat < b.toNat then true
    else if b.toNat < a.toNat then false
    else lexLt as bs

theorem charEq_of_toNat_eq {a b : Char} (h : a.toNat = b.toNat) : a = b := by
  apply Char.ext
  apply UInt32.ext
  simpa [Char.toNat, UInt32.toNat] using h

theorem lexLt_cons_false {a b : Char} {as bs : List Char} :
    lexLt (b :: bs) (a :: as) = false ↔
      a.toNat < b.toNat ∨ (a.toNat = b.toNat ∧ lexLt bs as = false) := by
  simp only [lexLt]
  rcases Nat.lt_trichotomy b.toNat a.toNat with h | h | h
  · have h1 : ¬ a.toNat < b.toNat := by omega
    have h2 : a.toNat ≠ b.toNat := by omega
    simp [h, h1, h2]
  · have h1 : ¬ b.toNat < a.toNat := by omega
    have h2 : ¬ a.toNat < b.toNat := by omega
    simp [h1, h2, h.symm]
  · have h1 : ¬ b.toNat < a.toNat := by omega
    simp [h, h1]

theorem lexLt_trichotomy : ∀ {x y : List Char}, lexLt x y = false → lexLt y x = false → x = y
  | [], [], _, _ => rfl
  | [], _ :: _, h, _ => by simp [lexLt] at h
  | _ :: _, [], _, h' => by simp [lexLt] at h'
  | a :: as, b :: bs, h, h' => by
    rw [lexLt_cons_false] at h h'
    rcases h with h | ⟨e, r⟩
    · rcases h' with h' | ⟨e', r'⟩ <;> omega
    · rcases h' with h' | ⟨e', r'⟩
      · omega
      · have hc : a = b := charEq_of_toNat_eq e.symm
        have ht : as = bs := lexLt_trichotomy r r'
        rw [hc, ht]

theorem lexLt_asymm : ∀ {x y : List Char}, lexLt x y = true → lexLt y x = false
  | [], [], h => by simp [lexLt] at h
  | [], _ :: _, _ => rfl
  | _ :: _, [], h => by simp [lexLt] at h
  | a :: as, b :: bs, h => by
    simp only [lexLt] at h ⊢
    rcases Nat.lt_trichotomy a.toNat b.toNat with hl | he | hg
    · have h1 : ¬ b.toNat < a.toNat := by omega
      simp [h1, hl]
    · have h1 : ¬ a.toNat < b.toNat := by omega
      have h2 : ¬ b.toNat < a.toNat := by omega
      simp only [h1, h2, if_false] at h ⊢
      exact lexLt_asymm h
    · have h1 : ¬ a.toNat < b.toNat := by omega
      simp [h1, hg] at h

theorem lexLt_le_trans :
    ∀ {x y z : List Char}, lexLt y x = false → lexLt z y = false → lexLt z x = false
  | [], _, [], _, _ => rfl
  | [], _, _ :: _, _, _ => rfl
  | _ :: _, [], [], h₁, _ => by simp [lexLt] at h₁
  | _ :: _, _ :: _, [], _, h₂ => by simp [lexLt] at h₂
  | _ :: _, [], _ :: _, h₁, _ => by simp [lexLt] at h₁
  | a :: as, b :: bs, c :: cs, h₁, h₂ => by
    rw [lexLt_cons_false] at h₁ h₂ ⊢
    rcases h₁ with h₁ | ⟨e₁, r₁⟩
    · rcases h₂ with h₂ | ⟨e₂, r₂⟩
      · exact Or.inl (by omega)
      · exact Or.inl (by omega)
    · rcases h₂ with h₂ | ⟨e₂, r₂⟩
      · exact Or.inl (by omega)
      · exact Or.inr ⟨by omega, lexLt_le_trans r₁ r₂⟩

/-- Comparison used by `sorted(self.found_subdomains)`: the stable sort
orders `a` before `b` when `not (b < a)` in the Python string order. -/
def nameLE (a b : String) : Prop := lexLt b.toList a.toList = false

instance : DecidableRel nameLE := fun a b =>
  inferInstanceAs (Decidable (lexLt b.toList a.toList = false))

instance : IsTotal String nameLE := ⟨fun a b => by
  by_cases h : lexLt b.toList a.toList = false
  · exact Or.inl h
  · exact Or.inr (lexLt_asymm (by
      cases hv : lexLt b.toList a.toList
      · exact absurd hv h
      · rfl))⟩

instance : IsTrans String nameLE := ⟨fun _ _ _ h₁ h₂ => lexLt_le_trans h₁ h₂⟩

instance : IsAntisymm String nameLE := ⟨fun a b h₁ h₂ => by
  have h : a.toList = b.toList := lexLt_trichotomy h₂ h₁
  exact String.toList_inj.mp h⟩

/-- The compile step of `SubdomainDiscovery.discover`: the found set
(modelled as the arrival-order list of additions, deduplicated as a Python
set is) is sorted and each surviving name is resolved to an address or the
`'N/A'` sentinel. -/
def compile_results (resolve : String → Option String) (found : List String) :
    List SubdomainEntry :=
  (List.insertionSort nameLE found.dedup).map (fun s => ⟨s, resolve_subdomain resolve s⟩)

/-! ## General lemmas -/

theorem pairwise_mono_mem {α : Type} {R S : α → α → Prop} {l : List α}
    (h : ∀ a ∈ l, ∀ b ∈ l, R a b → S a b) (hp : l.Pairwise R) : l.Pairwise S := by
  induction hp with
  | nil => exact List.Pairwise.nil
  | @cons a l' ha _ ih =>
    refine List.Pairwise.cons ?_ (ih ?_)
    · intro b hb
      exact h a (by simp) b (by simp [hb]) (ha b hb)
    · intro x hx y hy hr
      exact h x (by simp [hx]) y (by simp [hy]) hr

/-- Everything `_scan_port` reports has the submitted port and state
`'open'`. -/
theorem scan_port_some {net : Net} {p : Int} {st : String} {e : PortEntry}
    (h : scan_port net p st = some e) : e.port = p ∧ e.state = "open" := by
  unfold scan_port at h
  split at h
  · cases htc : net.tcp p <;> simp only [htc] at h
    · exact absurd h (by simp)
    · split at h
      · cases h
        exact ⟨rfl, rfl⟩
      · exact absurd h (by simp)
  · split at h
    · cases hu : net.udp p <;> simp only [hu] at h
      · cases h
        exact ⟨rfl, rfl⟩
      · exact absurd h (by simp)
      · exact absurd h (by simp)
    · exact absurd h (by simp)

/-- Two collected entries with the same port key are the same entry:
`_scan_port` is a function of the task. -/
theorem scan_entries_key_det {net : Net} {st : String} {l : List Int} {e₁ e₂ : PortEntry}
    (h₁ : e₁ ∈ l.filterMap (fun p => scan_port net p st))
    (h₂ : e₂ ∈ l.filterMap (fun p => scan_port net p st))
    (hk : e₁.port = e₂.port) : e₁ = e₂ := by
  rcases List.mem_filterMap.mp h₁ with ⟨p₁, _, hp₁⟩
  rcases List.mem_filterMap.mp h₂ with ⟨p₂, _, hp₂⟩
  have k₁ := (scan_port_some hp₁).1
  have k₂ := (scan_port_some hp₂).1
  have hpp : p₁ = p₂ := by rw [← k₁, ← k₂, hk]
  subst hpp
  exact Option.some.inj (hp₁.symm.trans hp₂)

/-- The port key as a relation whose only ties are equal entries. -/
def entryKeyRel (a b : PortEntry) : Prop := a.port < b.port ∨ a = b

instance : IsAntisymm PortEntry entryKeyRel := ⟨fun a b h₁ h₂ => by
  rcases h₁ with h₁ | h₁
  · rcases h₂ with h₂ | h₂
    · omega
    · exact h₂.symm
  · exact h₁⟩

theorem custom_scan_sorted (net : Net) (st : String) (l : List Int) :
    List.Sorted entryLE (custom_scan net st l) :=
  List.sorted_insertionSort entryLE _

theorem custom_scan_perm (net : Net) (st : String) (l : List Int) :
    (custom_scan net st l).Perm (l.filterMap (fun p => scan_port net p st)) :=
  List.perm_insertionSort entryLE _

theorem mem_custom_scan {net : Net} {st : String} {l : List Int} {e : PortEntry} :
    e ∈ custom_scan net st l ↔ e ∈ l.filterMap (fun p => scan_port net p st) :=
  (custom_scan_perm net st l).mem_iff

theorem custom_scan_key_det {net : Net} {st : String} {l : List Int} {e₁ e₂ : PortEntry}
    (h₁ : e₁ ∈ custom_scan net st l) (h₂ : e₂ ∈ custom_scan net st l)
    (hk : e₁.port = e₂.port) : e₁ = e₂ :=
  scan_entries_key_det (mem_custom_scan.mp h₁) (mem_custom_scan.mp h₂) hk

theorem custom_scan_sorted_keyRel (net : Net) (st : String) (l : List Int) :
    List.Sorted entryKeyRel (custom_scan net st l) := by
  refine pairwise_mono_mem ?_ (custom_scan_sorted net st l)
  intro a ha b hb hr
  rcases lt_or_eq_of_le (hr : a.port ≤ b.port) with h | h
  · exact Or.inl h
  · exact Or.inr (custom_scan_key_det ha hb h)

/-- The sorted output is a function of the multiset of completed tasks:
completion order never leaks into the result. -/
theorem custom_scan_perm_inv (net : Net) (st : String) {l₁ l₂ : List Int}
    (hp : l₁.Perm l₂) : custom_scan net st l₁ = custom_scan net st l₂ := by
  have hperm : (custom_scan net st l₁).Perm (custom_scan net st l₂) :=
    ((custom_scan_perm net st l₁).trans (hp.filterMap _)).trans
      (custom_scan_perm net st l₂).symm
  exact List.eq_of_perm_of_sorted hperm (custom_scan_sorted_keyRel net st l₁)
    (custom_scan_sorted_keyRel net st l₂)

theorem custom_scan_state_open {net : Net} {st : String} {l : List Int} {e : PortEntry}
    (h : e ∈ custom_scan net st l) : e.state = "open" := by
  rcases List.mem_filterMap.mp (mem_custom_scan.mp h) with ⟨p, _, hp⟩
  exact (scan_port_some hp).2

/-- The port keys of the collected (unsorted) entries form a sublist of
the submitted task list. -/
theorem scan_ports_sublist (net : Net) (st : String) : ∀ l : List Int,
    ((l.filterMap (fun p => scan_port net p st)).map PortEntry.port).Sublist l := by
  intro l
  induction l with
  | nil => simp
  | cons p rest ih =>
    cases h : scan_port net p st with
    | none =>
      simp only [List.filterMap_cons, h]
      exact ih.cons p
    | some e =>
      simp only [List.filterMap_cons, h, List.map_cons, (scan_port_some h).1]
      exact ih.cons₂ p

theorem custom_scan_ports_nodup (net : Net) (st : String) {l : List Int} (hl : l.Nodup) :
    ((custom_scan net st l).map PortEntry.port).Nodup := by
  have h1 : ((l.filterMap (fun p => scan_port net p st)).map PortEntry.port).Nodup :=
    hl.sublist (scan_ports_sublist net st l)
  exact (((custom_scan_perm net st l).map PortEntry.port).nodup_iff).mpr h1

theorem detect_state_open {env : DetectEnv} {ports : List Int} {s : ServiceEntry}
    (h : s ∈ detect env ports) : s.state = "open" := by
  rcases List.mem_filterMap.mp h with ⟨p, _, hp⟩
  unfold detect_service at hp
  split at hp
  · exact absurd hp (by simp)
  · split at hp
    · cases hp
      rfl
    · exact absurd hp (by simp)

theorem compile_results_names (resolve : String → Option String) (found : List String) :
    (compile_results resolve found).map SubdomainEntry.subdomain
      = List.insertionSort nameLE found.dedup := by
  simp only [compile_results, List.map_map]
  have : (SubdomainEntry.subdomain ∘ fun s => SubdomainEntry.mk s (resolve_subdomain resolve s))
      = fun s => s := rfl
  rw [this, List.map_id']

theorem compile_results_sorted (resolve : String → Option String) (found : List String) :
    List.Sorted nameLE ((compile_results resolve found).map SubdomainEntry.subdomain) := by
  rw [compile_results_names]
  exact List.sorted_insertionSort nameLE _

theorem compile_results_nodup (resolve : String → Option String) (found : List String) :
    ((compile_results resolve found).map SubdomainEntry.subdomain).Nodup := by
  rw [compile_results_names]
  exact ((List.perm_insertionSort nameLE _).nodup_iff).mpr (List.nodup_dedup _)

/-- The compiled subdomain list is a function of the found set:
arrival order of additions never leaks into the result. -/
theorem compile_results_perm_inv (resolve : String → Option String) {f₁ f₂ : List String}
    (hp : f₁.Perm f₂) : compile_results resolve f₁ = compile_results resolve f₂ := by
  have hd : f₁.dedup.Perm f₂.dedup := hp.dedup
  have hperm : (List.insertionSort nameLE f₁.dedup).Perm (List.insertionSort nameLE f₂.dedup) :=
    ((List.perm_insertionSort nameLE _).trans hd).trans
      (List.perm_insertionSort nameLE _).symm
  have heq : List.insertionSort nameLE f₁.dedup = List.insertionSort nameLE f₂.dedup :=
    List.eq_of_perm_of_sorted hperm (List.sorted_insertionSort nameLE _)
      (List.sorted_insertionSort nameLE _)
  simp [compile_results, heq]

/-! ## Parsing lemmas -/

/-- `range(a, b + 1)` holds exactly the integers between its bounds. -/
theorem intRange_mem {a b p : Int} : p ∈ intRange a b ↔ a ≤ p ∧ p ≤ b := by
  simp only [intRange, List.mem_map, List.mem_range]
  constructor
  · rintro ⟨i, hi, rfl⟩
    omega
  · rintro ⟨h1, h2⟩
    exact ⟨(p - a).toNat, by omega, by omega⟩

theorem parseGo_ok_mem : ∀ (parts : List (List Char)) (acc res : List Int),
    parseGo parts acc = .ok res →
    ∀ p : Int, p ∈ res ↔ p ∈ acc ∨ ∃ part ∈ parts, ∃ pl, parsePart part = .ok pl ∧ p ∈ pl := by
  intro parts
  induction parts with
  | nil =>
    intro acc res h p
    cases h
    simp
  | cons part rest ih =>
    intro acc res h p
    cases hp : parsePart part with
    | ok l =>
      simp only [parseGo, hp] at h
      rw [ih _ _ h p]
      simp only [List.mem_append, List.exists_mem_cons_iff, hp, Except.ok.injEq]
      constructor
      · rintro (⟨h | h⟩ | h)
        · exact Or.inl h
        · exact Or.inr (Or.inl ⟨l, rfl, h⟩)
        · exact Or.inr (Or.inr h)
      · rintro (h | ⟨pl, hpl, h⟩ | h)
        · exact Or.inl (Or.inl h)
        · exact Or.inl (Or.inr (hpl ▸ h))
        · exact Or.inr h
    | error e =>
      simp only [parseGo, hp] at h
      exact absurd h (by simp)

theorem parseGo_ok_tokens : ∀ (parts : List (List Char)) (acc res : List Int),
    parseGo parts acc = .ok res → ∀ part ∈ parts, ∃ pl, parsePart part = .ok pl := by
  intro parts
  induction parts with
  | nil =>
    intro acc res _ part hpart
    exact absurd hpart (by simp)
  | cons part rest ih =>
    intro acc res h part' hpart'
    cases hp : parsePart part with
    | ok l =>
      simp only [parseGo, hp] at h
      rcases List.mem_cons.mp hpart' with rfl | hmem
      · exact ⟨l, hp⟩
      · exact ih _ _ h part' hmem
    | error e =>
      simp only [parseGo, hp] at h
      exact absurd h (by simp)

theorem parseGo_tokens_ok : ∀ (parts : List (List Char)) (acc : List Int),
    (∀ part ∈ parts, ∃ pl, parsePart part = .ok pl) →
    ∃ res, parseGo parts acc = .ok res := by
  intro parts
  induction parts with
  | nil =>
    intro acc _
    exact ⟨acc, rfl⟩
  | cons part rest ih =>
    intro acc h
    rcases h part (by simp) with ⟨pl, hpl⟩
    rcases ih (acc ++ pl) (fun q hq => h q (by simp [hq])) with ⟨res, hres⟩
    exact ⟨res, by simp only [parseGo, hpl]; exact hres⟩

/-- Any parsed list holds exactly the ports the tokens imply. -/
theorem parse_port_range_mem {s : String} {l : List Int}
    (h : parse_port_range s = .ok l) (p : Int) :
    p ∈ l ↔ ∃ part ∈ splitOnChar ',' s.toList, ∃ pl, parsePart part = .ok pl ∧ p ∈ pl := by
  rw [parseGo_ok_mem _ _ _ h p]
  simp

/-- Success of the parse is exactly success of every token. -/
theorem parse_port_range_ok_iff {s : String} :
    (∃ l, parse_port_range s = .ok l) ↔
      ∀ part ∈ splitOnChar ',' s.toList, ∃ pl, parsePart part = .ok pl := by
  constructor
  · rintro ⟨l, h⟩
    exact parseGo_ok_tokens _ _ _ h
  · intro h
    exact parseGo_tokens_ok _ [] h

/-- A parse failure reaches the caller before any probe runs. -/
theorem parse_error_no_scan {net : Net} {s st : String} {e : String}
    (h : parse_port_range s = .error e) : scan_custom_path net s st = .error e := by
  simp only [scan_custom_path, h]
  rfl

/-! ## Probe branch lemmas -/

theorem scan_port_udp (net : Net) (p : Int) :
    scan_port net p "udp" =
      (match net.udp p with
       | .response => some ⟨p, "udp", "open", get_service_name p⟩
       | .timeout => none
       | .exn => none) := rfl

theorem scan_port_udp_timeout {net : Net} {p : Int} (h : net.udp p = .timeout) :
    scan_port net p "udp" = none := by
  rw [scan_port_udp, h]

theorem scan_port_udp_some {net : Net} {p : Int} {e : PortEntry}
    (h : scan_port net p "udp" = some e) :
    net.udp p = .response ∧ e.state = "open" := by
  rw [scan_port_udp] at h
  cases hu : net.udp p <;> rw [hu] at h
  · exact ⟨rfl, ((Option.some.inj h).symm ▸ rfl : e.state = "open")⟩
  · exact absurd h (by simp)
  · exact absurd h (by simp)

theorem scan_port_tcp_exn {net : Net} {p : Int} {st : String}
    (hst : st = "tcp" ∨ st = "syn") (h : net.tcp p = none) :
    scan_port net p st = none := by
  unfold scan_port
  rw [if_pos hst, h]

theorem scan_port_udp_exn {net : Net} {p : Int} (h : net.udp p = .exn) :
    scan_port net p "udp" = none := by
  rw [scan_port_udp, h]

theorem scan_port_tcp_refused {net : Net} {p : Int} {st : String} {code : Int}
    (hst : st = "tcp" ∨ st = "syn") (h : net.tcp p = some code) (hc : code ≠ 0) :
    scan_port net p st = none := by
  unfold scan_port
  rw [if_pos hst, h]
  simp [hc]

/-- A task whose probe reports nothing contributes nothing: removing it
from the batch leaves the result unchanged. -/
theorem custom_scan_drop_failed (net : Net) (st : String) (l₁ l₂ : List Int) (p : Int)
    (h : scan_port net p st = none) :
    custom_scan net st (l₁ ++ p :: l₂) = custom_scan net st (l₁ ++ l₂) := by
  unfold custom_scan
  rw [List.filterMap_append, List.filterMap_append, List.filterMap_cons, h]

/-- A batch whose probes all fail completes with the empty result. -/
theorem custom_scan_all_failed (net : Net) (st : String) {l : List Int}
    (h : ∀ p ∈ l, scan_port net p st = none) : custom_scan net st l = [] := by
  unfold custom_scan
  rw [List.filterMap_eq_nil_iff.mpr h]
  rfl

/-! ## Zone transfer lemmas -/

/-- When every name server refuses, the fold over the servers leaves the
found set untouched. -/
theorem zone_transfer_all_refused (target : String) (nss : List String)
    (xfr : String → XfrOutcome) (found : List String)
    (h : ∀ ns ∈ nss, xfr ns = .refused) :
    attempt_zone_transfer target (some nss) xfr found = found := by
  show List.foldl (zone_transfer_step target xfr) found nss = found
  induction nss with
  | nil => rfl
  | cons ns rest ih =>
    rw [List.foldl_cons]
    have hstep : zone_transfer_step target xfr found ns = found := by
      unfold zone_transfer_step
      rw [h ns (by simp)]
    rw [hstep]
    exact ih (fun q hq => h q (by simp [hq]))

/-- One refusing name server does not abort the attempt: the remaining
servers contribute exactly what they would without it. -/
theorem zone_transfer_refusal_skipped (target : String) (pre post : List String)
    (ns : String) (xfr : String → XfrOutcome) (found : List String)
    (h : xfr ns = .refused) :
    attempt_zone_transfer target (some (pre ++ ns :: post)) xfr found
      = attempt_zone_transfer target (some (pre ++ post)) xfr found := by
  show List.foldl (zone_transfer_step target xfr) found (pre ++ ns :: post)
    = List.foldl (zone_transfer_step target xfr) found (pre ++ post)
  rw [List.foldl_append, List.foldl_append, List.foldl_cons]
  have hstep : ∀ acc, zone_transfer_step target xfr acc ns = acc := by
    intro acc
    unfold zone_transfer_step
    rw [h]
  rw [hstep]

/-! ## Service identification refinement -/

/-- The `elif` chain of `_identify_service` is exactly first-match lookup
over the ordered keyword table. -/
theorem banner_keyword_eq_table (bl : List Char) :
    banner_keyword_service bl = table_first keyword_table bl := by
  simp only [table_first, keyword_table, banner_keyword_service,
    List.any_cons, List.any_nil, Bool.or_false, Bool.or_assoc]

/-- `_identify_service` agrees with the specification's ordered-table
description of the policy. -/
theorem identify_service_eq_spec (port : Int) (banner : String) :
    identify_service port banner = spec_identify port banner := by
  unfold identify_service spec_identify
  rw [banner_keyword_eq_table]

/-! ## Concrete environments used by witnesses and counterexamples -/

/-- A network where every TCP connect returns `0` and every UDP probe is
answered. -/
def allOpenNet : Net := ⟨fun _ => some 0, fun _ => .response⟩

/-- A network where every probe raises an exception. -/
def errNet : Net := ⟨fun _ => none, fun _ => .exn⟩

/-- A network whose UDP probes all elapse their timeout unanswered. -/
def udpSilentNet : Net := ⟨fun _ => some 0, fun _ => .timeout⟩

/-- A network where every TCP connect is refused (`connect_ex` nonzero). -/
def refusedNet : Net := ⟨fun _ => some 111, fun _ => .timeout⟩

/-- A network where only port 99 is refused and everything else is open. -/
def mixedNet : Net := ⟨fun p => if p = 99 then some 111 else some 0, fun _ => .response⟩

/-- A detector environment: every port open, empty banners, no exceptions. -/
def openEnv : DetectEnv := ⟨fun _ => true, fun _ => "", fun _ => false⟩

/-! ## Claims -/

/-- C1 (counterexample): the claim fails on the code.  `"5-3"` (a range
with `b < a`) parses successfully to the empty list instead of failing;
`"80,80"` parses to a list with a duplicate instead of a deduplicated set;
`"70000"` parses successfully although 70000 is outside `[1, 65535]`. -/
theorem parse_port_range_claim_cex :
    parse_port_range "5-3" = .ok [] ∧
    parse_port_range "80,80" = .ok [80, 80] ∧
    parse_port_range "70000" = .ok [70000] :=
  ⟨rfl, rfl, rfl⟩

/-- C1 (amended): parsing splits on commas; an `a-b` token contributes
exactly the integers of the inclusive range (empty when `b < a`, with no
error); a plain token contributes its integer; the result is the ordered
concatenation with no deduplication and no `[1, 65535]` bounds check; a
non-numeric token makes the parse fail, and a parse failure reaches the
caller before any probe runs. -/
theorem parse_port_range_amended :
    (∀ a b p : Int, p ∈ intRange a b ↔ a ≤ p ∧ p ≤ b) ∧
    (∀ (s : String) (l : List Int), parse_port_range s = .ok l →
      ∀ p : Int, p ∈ l ↔
        ∃ part ∈ splitOnChar ',' s.toList, ∃ pl, parsePart part = .ok pl ∧ p ∈ pl) ∧
    (∀ s : String, (∃ l, parse_port_range s = .ok l) ↔
      ∀ part ∈ splitOnChar ',' s.toList, ∃ pl, parsePart part = .ok pl) ∧
    (∀ (net : Net) (s st e : String), parse_port_range s = .error e →
      scan_custom_path net s st = .error e) :=
  ⟨fun _ _ _ => intRange_mem, fun _ _ h p => parse_port_range_mem h p,
   fun _ => parse_port_range_ok_iff, fun _ _ _ _ h => parse_error_no_scan h⟩

/-- C1 (witness): the amended theorem applied at `"22,80-82"` and at the
non-numeric specification `"abc"`. -/
theorem parse_port_range_amended_witness :
    ((81 : Int) ∈ [(22 : Int), 80, 81, 82] ↔
      ∃ part ∈ splitOnChar ',' "22,80-82".toList,
        ∃ pl, parsePart part = .ok pl ∧ (81 : Int) ∈ pl) ∧
    scan_custom_path errNet "abc" "tcp"
      = .error "ValueError: invalid literal for int with base 10" :=
  ⟨parse_port_range_amended.2.1 "22,80-82" [22, 80, 81, 82] rfl 81,
   parse_port_range_amended.2.2.2 errNet "abc" "tcp" _ rfl⟩

/-- C2: a UDP probe that times out never yields an entry, and a UDP entry
is produced only when an actual datagram response arrived, in which case
its state is `'open'`. -/
theorem udp_timeout_not_open :
    (∀ (net : Net) (p : Int), net.udp p = .timeout → scan_port net p "udp" = none) ∧
    (∀ (net : Net) (p : Int) (e : PortEntry), scan_port net p "udp" = some e →
      net.udp p = .response ∧ e.state = "open") :=
  ⟨fun _ _ h => scan_port_udp_timeout h, fun _ _ _ h => scan_port_udp_some h⟩

/-- C2 (witness): a silent UDP probe of port 53 reports nothing; an
answered UDP probe of port 161 reports an open entry. -/
theorem udp_timeout_not_open_witness :
    scan_port udpSilentNet 53 "udp" = none ∧
    (allOpenNet.udp 161 = .response ∧
      (PortEntry.mk 161 "udp" "open" "unknown").state = "open") :=
  ⟨udp_timeout_not_open.1 udpSilentNet 53 rfl,
   udp_timeout_not_open.2 allOpenNet 161 ⟨161, "udp", "open", "unknown"⟩ rfl⟩

/-- C3 (counterexample): the claim's ordering statement fails on the code.
For a banner containing both `"mysql"` and `"http"` the chain answers
`"HTTP"`, because the `http` arm is checked before the `mysql` arm: the
more specific keyword IS preempted. -/
theorem identify_service_order_cex :
    identify_service 3306 "mysql via http" = "HTTP" ∧
    identify_service 3306 "mysql via http" ≠ "MySQL" :=
  ⟨by decide, by decide⟩

/-- C3 (amended): banner keyword identification is case-insensitive
first-match over the fixed ordered table [ssh, ftp, smtp|mail,
http|apache|nginx, mysql, postgresql|postgres, redis, mongodb|mongo] — so
`http` preempts `mysql` when both occur — and an empty banner or a
keyword miss falls back to the static port table, then `"Unknown"`. -/
theorem identify_service_first_match :
    (∀ (port : Int) (banner : String),
      identify_service port banner = spec_identify port banner) ∧
    (∀ port : Int, identify_service port "" = (port_services port).getD "Unknown") :=
  ⟨identify_service_eq_spec, fun _ => rfl⟩

/-- C4: for any completion order of the probes (any permutation of the
task list), the custom scan's output is identical and sorted by numeric
port ascending, and the compiled subdomain list is identical for any
arrival order of the found set and sorted lexicographically by name. -/
theorem results_order_deterministic :
    (∀ (net : Net) (st : String) (l₁ l₂ : List Int), l₁.Perm l₂ →
      custom_scan net st l₁ = custom_scan net st l₂) ∧
    (∀ (net : Net) (st : String) (l : List Int),
      List.Sorted entryLE (custom_scan net st l)) ∧
    (∀ (resolve : String → Option String) (f₁ f₂ : List String), f₁.Perm f₂ →
      compile_results resolve f₁ = compile_results resolve f₂) ∧
    (∀ (resolve : String → Option String) (found : List String),
      List.Sorted nameLE ((compile_results resolve found).map SubdomainEntry.subdomain)) :=
  ⟨fun net st _ _ hp => custom_scan_perm_inv net st hp, custom_scan_sorted,
   fun resolve _ _ hp => compile_results_perm_inv resolve hp, compile_results_sorted⟩

/-- C4 (witness): the determinism parts applied to the completion orders
`[22, 80]` versus `[80, 22]` and to a concrete found set. -/
theorem results_order_deterministic_witness :
    custom_scan allOpenNet "tcp" [22, 80] = custom_scan allOpenNet "tcp" [80, 22] ∧
    compile_results (fun _ => none) ["www.example.com"]
      = compile_results (fun _ => none) ["www.example.com"] :=
  ⟨results_order_deterministic.1 allOpenNet "tcp" [22, 80] [80, 22] (List.Perm.swap 80 22 []),
   results_order_deterministic.2.2.1 (fun _ => none) _ _ (List.Perm.refl _)⟩

/-- C5 (counterexample): the claim fails for the port list.  The input
`"80,80"` names port 80 twice, both submissions succeed, and the public
result contains two entries with the same identity key. -/
theorem dup_ports_cex :
    scan_custom_path allOpenNet "80,80" "tcp"
      = .ok [⟨80, "tcp", "open", "http"⟩, ⟨80, "tcp", "open", "http"⟩] ∧
    ¬ ((custom_scan allOpenNet "tcp" [80, 80]).map PortEntry.port).Nodup :=
  ⟨rfl, by decide⟩

/-- C5 (amended): the subdomain list never contains duplicate identity
keys; the port list is duplicate-free whenever the parsed port list is
(so overlapping ranges and repeated ports are the only source of
repeats), and even with repeated input any two entries sharing a port are
the same record. -/
theorem result_identity_keys :
    (∀ (resolve : String → Option String) (found : List String),
      ((compile_results resolve found).map SubdomainEntry.subdomain).Nodup) ∧
    (∀ (net : Net) (st : String) (l : List Int), l.Nodup →
      ((custom_scan net st l).map PortEntry.port).Nodup) ∧
    (∀ (net : Net) (st : String) (l : List Int) (e₁ e₂ : PortEntry),
      e₁ ∈ custom_scan net st l → e₂ ∈ custom_scan net st l →
      e₁.port = e₂.port → e₁ = e₂) :=
  ⟨compile_results_nodup, fun net st _ h => custom_scan_ports_nodup net st h,
   fun _ _ _ _ _ h₁ h₂ hk => custom_scan_key_det h₁ h₂ hk⟩

/-- C5 (witness): the amended theorem applied to the duplicate-free task
list `[443, 80]` and to two same-key entries of the scan of `[80, 80]`. -/
theorem result_identity_keys_witness :
    ((custom_scan allOpenNet "tcp" [443, 80]).map PortEntry.port).Nodup ∧
    (⟨80, "tcp", "open", "http"⟩ : PortEntry) = ⟨80, "tcp", "open", "http"⟩ :=
  ⟨result_identity_keys.2.1 allOpenNet "tcp" [443, 80] (by decide),
   result_identity_keys.2.2 allOpenNet "tcp" [80, 80] _ _ (by decide) (by decide) rfl⟩

/-- C6 (counterexample): the claim's version value fails on the code.  On
`"SSH-2.0-OpenSSH_8.2p1"` the `x.x.x` pattern misses, and `re.search` of
the `x.x` pattern returns its leftmost match, which is the protocol
version `"2.0"` preceding the claimed `"8.2"`. -/
theorem ssh_banner_version_cex :
    extract_version "SSH-2.0-OpenSSH_8.2p1" = "2.0" ∧
    extract_version "SSH-2.0-OpenSSH_8.2p1" ≠ "8.2" :=
  ⟨by decide, by decide⟩

/-- C6 (amended): on banner `"SSH-2.0-OpenSSH_8.2p1"` at port 22 the
banner keyword match for `ssh` yields service `"SSH"` (winning over the
port table), and version extraction yields `"2.0"`, the leftmost `x.x`
match. -/
theorem ssh_banner_amended :
    identify_service 22 "SSH-2.0-OpenSSH_8.2p1" = "SSH" ∧
    extract_version "SSH-2.0-OpenSSH_8.2p1" = "2.0" :=
  ⟨by decide, by decide⟩

/-- C7: when every name server refuses the transfer, the zone-transfer
method contributes zero subdomains and the found set is returned exactly
as it was (other methods' results unaffected); a single refusal never
aborts the attempt against the remaining name servers; the model absorbs
every refusal, so no exception reaches the caller. -/
theorem zone_transfer_refusal_harmless :
    (∀ (target : String) (nss : List String) (xfr : String → XfrOutcome)
      (found : List String), (∀ ns ∈ nss, xfr ns = .refused) →
      attempt_zone_transfer target (some nss) xfr found = found) ∧
    (∀ (target : String) (pre post : List String) (ns : String)
      (xfr : String → XfrOutcome) (found : List String), xfr ns = .refused →
      attempt_zone_transfer target (some (pre ++ ns :: post)) xfr found
        = attempt_zone_transfer target (some (pre ++ post)) xfr found) ∧
    (∀ (resolve : String → Option String) (target : String) (nss : List String)
      (xfr : String → XfrOutcome) (found : List String),
      (∀ ns ∈ nss, xfr ns = .refused) →
      compile_results resolve (attempt_zone_transfer target (some nss) xfr found)
        = compile_results resolve found) :=
  ⟨zone_transfer_all_refused, zone_transfer_refusal_skipped,
   fun resolve target nss xfr found h => by
     rw [zone_transfer_all_refused target nss xfr found h]⟩

/-- C7 (witness): two name servers both refusing leave the previously
found subdomain list exactly as it was. -/
theorem zone_transfer_refusal_harmless_witness :
    attempt_zone_transfer "example.com" (some ["ns1.example.com", "ns2.example.com"])
      (fun _ => .refused) ["www.example.com"] = ["www.example.com"] :=
  zone_transfer_refusal_harmless.1 "example.com" _ _ _ (fun _ _ => rfl)

/-- C8: every per-task error is absorbed locally as a non-finding for that
task only: a TCP exception, a refused connect and a UDP exception each
yield `none`; a failing task can be removed from the batch without
changing the result (no abort, no retry, siblings unaffected); a batch
whose probes all fail completes with the empty, non-error result; a
resolution failure makes `_test_subdomain` report `None`. -/
theorem per_task_errors_absorbed :
    (∀ (net : Net) (p : Int) (st : String), (st = "tcp" ∨ st = "syn") →
      net.tcp p = none → scan_port net p st = none) ∧
    (∀ (net : Net) (p code : Int) (st : String), (st = "tcp" ∨ st = "syn") →
      net.tcp p = some code → code ≠ 0 → scan_port net p st = none) ∧
    (∀ (net : Net) (p : Int), net.udp p = .exn → scan_port net p "udp" = none) ∧
    (∀ (net : Net) (st : String) (l₁ l₂ : List Int) (p : Int),
      scan_port net p st = none →
      custom_scan net st (l₁ ++ p :: l₂) = custom_scan net st (l₁ ++ l₂)) ∧
    (∀ (net : Net) (st : String) (l : List Int), (∀ p ∈ l, scan_port net p st = none) →
      custom_scan net st l = []) ∧
    (∀ (resolve : String → Option String) (target sub : String),
      resolve (sub ++ "." ++ target) = none → test_subdomain resolve target sub = none) :=
  ⟨fun _ _ _ hst h => scan_port_tcp_exn hst h,
   fun _ _ _ _ hst h hc => scan_port_tcp_refused hst h hc,
   fun _ _ h => scan_port_udp_exn h,
   custom_scan_drop_failed,
   fun net st _ h => custom_scan_all_failed net st h,
   fun _ _ _ h => by simp [test_subdomain, h]⟩

/-- C8 (witness): each absorption applied at a concrete input: exception,
refusal, UDP exception, a failing port 99 inside a batch, an all-failing
batch, and a failing subdomain resolution. -/
theorem per_task_errors_absorbed_witness :
    scan_port errNet 80 "tcp" = none ∧
    scan_port refusedNet 80 "tcp" = none ∧
    scan_port errNet 53 "udp" = none ∧
    custom_scan mixedNet "tcp" ([22] ++ 99 :: [443]) = custom_scan mixedNet "tcp" ([22] ++ [443]) ∧
    custom_scan errNet "tcp" [80, 443] = [] ∧
    test_subdomain (fun _ => none) "example.com" "www" = none :=
  ⟨per_task_errors_absorbed.1 errNet 80 "tcp" (Or.inl rfl) rfl,
   per_task_errors_absorbed.2.1 refusedNet 80 111 "tcp" (Or.inl rfl) rfl (by decide),
   per_task_errors_absorbed.2.2.1 errNet 53 rfl,
   per_task_errors_absorbed.2.2.2.1 mixedNet "tcp" [22] [443] 99 rfl,
   per_task_errors_absorbed.2.2.2.2.1 errNet "tcp" [80, 443] (fun _ _ => rfl),
   per_task_errors_absorbed.2.2.2.2.2 (fun _ => none) "example.com" "www" rfl⟩

/-- C9: on the raw-socket path, scan type `"syn"` is an exact alias of
`"tcp"`: for every network environment and port, `_scan_port` returns the
same result for both. -/
theorem syn_is_tcp_alias :
    ∀ (net : Net) (p : Int), scan_port net p "syn" = scan_port net p "tcp" :=
  fun _ _ => rfl

/-- C10: every entry of the custom scanner's public output and every entry
of the detector's services list has state `'open'`; closed, filtered and
erroring probes produce no entry at all. -/
theorem public_state_always_open :
    (∀ (net : Net) (st : String) (l : List Int) (e : PortEntry),
      e ∈ custom_scan net st l → e.state = "open") ∧
    (∀ (env : DetectEnv) (ports : List Int) (s : ServiceEntry),
      s ∈ detect env ports → s.state = "open") :=
  ⟨fun _ _ _ _ h => custom_scan_state_open h, fun _ _ _ h => detect_state_open h⟩

/-- C10 (witness): the invariant applied to a concrete scan entry and a
concrete detected service. -/
theorem public_state_always_open_witness :
    (⟨80, "tcp", "open", "http"⟩ : PortEntry).state = "open" ∧
    (⟨22, "open", "SSH", "", "Unknown"⟩ : ServiceEntry).state = "open" :=
  ⟨public_state_always_open.1 allOpenNet "tcp" [80] _ (by decide),
   public_state_always_open.2 openEnv [22] _ (by decide)⟩

end Spotter
